import Mathlib

/-!
Shallow embedding of `whatsapp_script.py`: a WhatsApp chat-log parser built
on one regular expression and a handful of pandas DataFrame operations.

Strings from the Python side are modelled as `List Char` (with `String`
wrappers at the API boundary), pandas DataFrames as ordered column lists
plus rows of column/cell association lists, and pandas nulls (None/NaN) as
`Option.none` cells.  Exceptions raised by file access or by pandas are
modelled with `Except PdError`.
-/

namespace WhatsappScript

/-! ## Python string primitives -/

/-- ASCII whitespace recognised by Python `str.strip()` (the chat lines in
scope are ASCII-terminated; Unicode spaces do not occur in them). -/
def isPySpace (c : Char) : Bool :=
  c = ' ' || c = '\t' || c = '\n' || c = '\r' || c = '\x0b' || c = '\x0c'

/-- Python `str.strip()`: drop leading and trailing whitespace. -/
def pstrip (s : List Char) : List Char :=
  ((s.dropWhile isPySpace).reverse.dropWhile isPySpace).reverse

/-- All suffixes of a list, longest first.  Used to express `re.search`
scanning for a match at each start position. -/
def suffixes : List Char → List (List Char)
  | [] => [[]]
  | c :: cs => (c :: cs) :: suffixes cs

/-- Python `s.split(",")`: split on every comma, `"".split(",") = [""]`. -/
def splitAll : List Char → List (List Char)
  | [] => [[]]
  | c :: cs =>
    if c = ',' then [] :: splitAll cs
    else
      match splitAll cs with
      | t :: ts => (c :: t) :: ts
      | [] => [[c]]

/-! ## The line regex `^\[(.*?)\] (.*?): (.*)$`

`_parse_message` matches each stripped line against this pattern.  The
lazy groups mean: the timestamp ends at the first `"] "` that still leaves
a `": "` somewhere to its right, and the sender ends at the first `": "`
after that.  The model below reproduces exactly this backtracking
behaviour; it is faithful for single lines (no interior newline), which is
what `readlines` produces. -/

/-- Does `": "` occur anywhere in the list? -/
def hasColonSpace : List Char → Bool
  | [] => false
  | c :: cs => if c = ':' ∧ cs.head? = some ' ' then true else hasColonSpace cs

/-- Split at the first `": "`: the lazy group `(.*?): ` followed by `(.*)$`,
which always succeeds on the rest. -/
def findColonSpace : List Char → Option (List Char × List Char)
  | [] => none
  | c :: cs =>
    if c = ':' ∧ cs.head? = some ' ' then some ([], cs.tail)
    else (findColonSpace cs).map (fun p => (c :: p.1, p.2))

/-- Split at the first `"] "` whose right part still contains `": "`: the
lazy group `(.*?)\] ` backtracks past a candidate `"] "` exactly when the
rest of the pattern (which needs a `": "`) cannot match after it. -/
def findBracketSpace : List Char → Option (List Char × List Char)
  | [] => none
  | c :: cs =>
    if c = ']' ∧ cs.head? = some ' ' ∧ hasColonSpace cs.tail then some ([], cs.tail)
    else (findBracketSpace cs).map (fun p => (c :: p.1, p.2))

/-- `re.match(r'^\[(.*?)\] (.*?): (.*)$', s)` on an already-stripped line:
returns the three captured groups, or `none` when the line does not match. -/
def matchPattern (s : List Char) : Option (List Char × List Char × List Char) :=
  match s with
  | '[' :: rest =>
    match findBracketSpace rest with
    | some (t, rest2) =>
      match findColonSpace rest2 with
      | some (snd, c) => some (t, snd, c)
      | none => none
    | none => none
  | _ => none

/-- `_parse_message` from the source: strip the line, match the pattern,
and return the triple `(timestamp, sender, content)`, each component an
`Option` because the Python function returns `(None, None, None)` on a
non-matching line. -/
def parse_message (message : String) : Option String × Option String × Option String :=
  match matchPattern (pstrip message.data) with
  | some (t, snd, c) => (some ⟨t⟩, some ⟨snd⟩, some ⟨c⟩)
  | none => (none, none, none)

/-! ## DataFrame model -/

/-- A pandas cell: `none` models a null (None/NaN). -/
abbrev Cell := Option String

/-- A row maps column names to cells, in column order. -/
abbrev Row := List (String × Cell)

/-- A pandas DataFrame: ordered column names and rows. -/
structure DataFrame where
  cols : List String
  rows : List Row
deriving DecidableEq

/-- Errors surfaced by the script: missing file (`FileNotFoundError`),
missing column (`KeyError`/`AttributeError`) and pandas `ValueError`. -/
inductive PdError where
  | fileNotFound : String → PdError
  | missingColumn : String → PdError
  | valueError : String → PdError
deriving DecidableEq

/-- Results of the script's operations can be compared decidably, so that
concrete runs of the model evaluate inside proofs. -/
instance exceptDecEq {ε α : Type} [DecidableEq ε] [DecidableEq α] :
    DecidableEq (Except ε α) := fun a b =>
  match a, b with
  | .error e, .error f =>
    if h : e = f then .isTrue (by rw [h])
    else .isFalse (by intro he; cases he; exact h rfl)
  | .ok x, .ok y =>
    if h : x = y then .isTrue (by rw [h])
    else .isFalse (by intro he; cases he; exact h rfl)
  | .error _, .ok _ => .isFalse (by intro he; cases he)
  | .ok _, .error _ => .isFalse (by intro he; cases he)

/-- Look up a column's cell in a row: `none` when the row has no such
column, `some c` (with `c` possibly a null cell) otherwise. -/
def getCell (r : Row) (c : String) : Option Cell :=
  (r.find? (fun p => p.1 == c)).map (fun p => p.2)

/-- Project a row onto a list of columns, as pandas `df[[c1, ..., ck]]`
does row-wise once the columns are known to exist. -/
def projRow (cs : List String) (r : Row) : Row :=
  cs.map (fun c => (c, (getCell r c).getD none))

/-- pandas `df[[c1, ..., ck]]`: raises a `KeyError` when a requested
column is absent, otherwise restricts and reorders the columns. -/
def selectCols (df : DataFrame) (cs : List String) : Except PdError DataFrame :=
  match cs.find? (fun c => !(df.cols.contains c)) with
  | some c => .error (.missingColumn c)
  | none => .ok ⟨cs, df.rows.map (projRow cs)⟩

/-! ## `_split_and_reorder_timestamp` -/

/-- The comma-split parts of a row's Timestamp cell:
`df.Timestamp.str.split(",")` applied to one cell, `none` for a null. -/
def partsOfRow (r : Row) : Option (List (List Char)) :=
  ((getCell r "Timestamp").getD none).map (fun s => splitAll s.data)

/-- `_split_and_reorder_timestamp` from the source.  It evaluates
`df[["Date", "Time"]] = df.Timestamp.str.split(",", expand=True)` and then
`df[["Date", "Time", "Sender", "Content"]]`.  `expand=True` yields one
column per part up to the maximum split count over the rows (zero columns
for an empty frame), padding shorter rows with nulls; the assignment
raises `ValueError: Columns must be same length as key` unless that
column count is exactly 2 (the length of `["Date", "Time"]`). -/
def split_and_reorder_timestamp (df : DataFrame) : Except PdError DataFrame :=
  if !(df.cols.contains "Timestamp") then .error (.missingColumn "Timestamp")
  else
    if df.rows.foldl
        (fun acc r => match partsOfRow r with
          | some l => max acc l.length
          | none => acc) 0 ≠ 2 then
      .error (.valueError "Columns must be same length as key")
    else if !(df.cols.contains "Sender" && df.cols.contains "Content") then
      .error (.missingColumn "Sender")
    else .ok ⟨["Date", "Time", "Sender", "Content"],
      df.rows.map (fun r =>
        [("Date", ((partsOfRow r).bind (fun l => l.get? 0)).map (fun cs => (⟨cs⟩ : String))),
         ("Time", ((partsOfRow r).bind (fun l => l.get? 1)).map (fun cs => (⟨cs⟩ : String))),
         ("Sender", (getCell r "Sender").getD none),
         ("Content", (getCell r "Content").getD none)])⟩

/-! ## `load_chat_data` -/

/-- The row built by `pd.DataFrame(parsed_messages, ...)` from one parsed
triple: the `Option` components become the cells directly, so a `None`
component would become a null cell. -/
def rowOfTriple (m : Option String × Option String × Option String) : Row :=
  [("Timestamp", m.1), ("Sender", m.2.1), ("Content", m.2.2)]

/-- The pure part of `load_chat_data` after the file has been read into
lines: parse every line, keep the parses whose first component is not
`None` (the filter in the source inspects only `msg[0]`), build the
DataFrame, and optionally split the timestamp. -/
def build_table (lines : List String) (split_timestamp : Bool) : Except PdError DataFrame :=
  let parsed := lines.map parse_message
  let kept := parsed.filter (fun m => m.1.isSome)
  let df : DataFrame := ⟨["Timestamp", "Sender", "Content"], kept.map rowOfTriple⟩
  if split_timestamp then split_and_reorder_timestamp df else .ok df

/-- A filesystem: each path maps to the lines of its file, or `none` when
the path cannot be opened. -/
abbrev FileSystem := String → Option (List String)

/-- `load_chat_data` from the source.  Note that the body executes
`open('_chat.txt', 'r', encoding='utf-8')` with a hard-coded filename: the
`file_path` parameter is received but never used, so the result depends
only on the file named `_chat.txt`. -/
def load_chat_data (fs : FileSystem) (file_path : String)
    (split_timestamp : Bool := true) : Except PdError DataFrame :=
  let _ := file_path
  match fs "_chat.txt" with
  | none => .error (.fileNotFound "_chat.txt")
  | some lines => build_table lines split_timestamp

/-! ## `plot_senders_distribution` (the aggregation it computes)

The plotting side effects are outside the model; the value the function
computes and prints is `df.groupby("Sender").size()`: per-sender row
counts, with null senders dropped and keys sorted lexicographically. -/

/-- The non-null Sender values of the rows, in row order. -/
def senderVals (df : DataFrame) : List String :=
  df.rows.filterMap (fun r => (getCell r "Sender").getD none)

/-- Strict lexicographic comparison of character lists by code point: the
order in which Python compares strings, hence the order of pandas group
keys (for ASCII names this is plain alphabetical order). -/
def lexLt : List Char → List Char → Bool
  | [], [] => false
  | [], _ :: _ => true
  | _ :: _, [] => false
  | a :: as, b :: bs => if a = b then lexLt as bs else decide (a < b)

/-- The matching non-strict string order used for sorting group keys. -/
def strLeB (a b : String) : Bool := a == b || lexLt a.data b.data

/-- `df.groupby("Sender").size()` as an ordered key/count list: raises a
`KeyError` when there is no Sender column, otherwise counts rows per
distinct non-null sender, keys in lexicographic (alphabetical) order. -/
def sender_message_count (df : DataFrame) : Except PdError (List (String × Nat)) :=
  if !(df.cols.contains "Sender") then .error (.missingColumn "Sender")
  else
    let vals := senderVals df
    let keys := List.insertionSort (fun a b => strLeB a b = true) vals.dedup
    .ok (keys.map (fun k => (k, vals.count k)))

/-! ## `count_word_usage`

`df["Content"].str.contains(word, case=False, na=False)` leaves
`regex=True` at its default, so `word` is compiled as a regular expression
with `re.IGNORECASE` and matched with `re.search`.  The model below covers
the regex fragment of literal characters plus `'.'` (any character except
newline); every such word is a valid pattern, and on metacharacter-free
words the fragment coincides with substring search.  Case-insensitivity is
modelled by ASCII lowercasing of both sides. -/

/-- One pattern character against one subject character, `re.IGNORECASE`:
`'.'` matches anything but a newline, other characters match up to case. -/
def patCharMatch (p c : Char) : Bool :=
  if p = '.' then c ≠ '\n' else p.toLower = c.toLower

/-- Does the pattern match a prefix of the subject? -/
def patAt : List Char → List Char → Bool
  | [], _ => true
  | _ :: _, [] => false
  | p :: ps, c :: cs => patCharMatch p c && patAt ps cs

/-- `re.search` over the literal-plus-dot fragment: the pattern matches at
some start position of the subject. -/
def patSearch (p s : List Char) : Bool :=
  (suffixes s).any (patAt p)

/-- `count_word_usage` from the source: keep the rows whose Content cell
matches `word` (null cells excluded by `na=False`, a missing Content
column is a `KeyError`), then select `[["Date", "Sender", "Content"]]`. -/
def count_word_usage (word : String) (df : DataFrame) : Except PdError DataFrame :=
  if !(df.cols.contains "Content") then .error (.missingColumn "Content")
  else
    let keep : Row → Bool := fun r =>
      match (getCell r "Content").getD none with
      | some s => patSearch word.data s.data
      | none => false
    selectCols ⟨df.cols, df.rows.filter keep⟩ ["Date", "Sender", "Content"]

/-! ## Claim-side (specification) definitions -/

/-- Does `pat` occur as a contiguous run inside `l`? -/
def containsSeq (pat : List Char) : List Char → Bool
  | [] => pat.isPrefixOf []
  | c :: cs => pat.isPrefixOf (c :: cs) || containsSeq pat cs

/-- Case-insensitive prefix test, spec side of "case-insensitive literal
substring". -/
def prefixCI : List Char → List Char → Bool
  | [], _ => true
  | _ :: _, [] => false
  | w :: ws, c :: cs => (w.toLower = c.toLower) && prefixCI ws cs

/-- Case-insensitive literal substring containment, as the spec words it. -/
def substrCI (w s : List Char) : Bool :=
  (suffixes s).any (prefixCI w)

/-- Python regular-expression metacharacters: a word avoiding all of them
is matched purely literally. -/
def isRegexMeta (c : Char) : Bool :=
  c = '.' || c = '^' || c = '$' || c = '*' || c = '+' || c = '?' ||
  c = '{' || c = '}' || c = '[' || c = ']' || c = '\\' || c = '|' ||
  c = '(' || c = ')'

/-- A line is well-formed when `_parse_message` extracts a timestamp from
it (the loader's filter tests exactly this). -/
def wellFormed (line : String) : Bool :=
  (parse_message line).1.isSome

/-- The bracketed shape `"[T] S: C"` as a character list. -/
def bform (t snd c : List Char) : List Char :=
  '[' :: (t ++ ']' :: ' ' :: (snd ++ ':' :: ' ' :: c))

/-! ## Lemmas about the line matcher -/

theorem hasColonSpace_append (S C : List Char) :
    hasColonSpace (S ++ ':' :: ' ' :: C) = true := by
  induction S with
  | nil => simp [hasColonSpace]
  | cons c cs ih =>
    rw [List.cons_append, hasColonSpace]
    split
    · rfl
    · exact ih

theorem findColonSpace_append (S C : List Char)
    (hS : containsSeq [':', ' '] S = false) :
    findColonSpace (S ++ ':' :: ' ' :: C) = some (S, C) := by
  induction S with
  | nil => simp [findColonSpace]
  | cons c cs ih =>
    rw [containsSeq, Bool.or_eq_false_iff] at hS
    have hcond : ¬(c = ':' ∧ (cs ++ ':' :: ' ' :: C).head? = some ' ') := by
      rintro ⟨rfl, hhead⟩
      cases cs with
      | nil => simp at hhead
      | cons c2 cs2 =>
        simp only [List.cons_append, List.head?_cons, Option.some.injEq] at hhead
        subst hhead
        simp [List.isPrefixOf] at hS
    rw [List.cons_append, findColonSpace, if_neg hcond, ih hS.2]
    rfl

theorem findBracketSpace_append (T R : List Char)
    (hT : containsSeq [']', ' '] T = false) (hR : hasColonSpace R = true) :
    findBracketSpace (T ++ ']' :: ' ' :: R) = some (T, R) := by
  induction T with
  | nil => simp [findBracketSpace, hR]
  | cons c cs ih =>
    rw [containsSeq, Bool.or_eq_false_iff] at hT
    have hcond : ¬(c = ']' ∧ (cs ++ ']' :: ' ' :: R).head? = some ' ' ∧
        hasColonSpace (cs ++ ']' :: ' ' :: R).tail = true) := by
      rintro ⟨rfl, hhead, -⟩
      cases cs with
      | nil => simp at hhead
      | cons c2 cs2 =>
        simp only [List.cons_append, List.head?_cons, Option.some.injEq] at hhead
        subst hhead
        simp [List.isPrefixOf] at hT
    rw [List.cons_append, findBracketSpace, if_neg hcond, ih hT.2]
    rfl

theorem matchPattern_bform (t snd c : List Char)
    (hT : containsSeq [']', ' '] t = false)
    (hS : containsSeq [':', ' '] snd = false) :
    matchPattern (bform t snd c) = some (t, snd, c) := by
  simp only [bform, matchPattern,
    findBracketSpace_append t _ hT (hasColonSpace_append snd c),
    findColonSpace_append snd c hS]

theorem findColonSpace_decomp :
    ∀ {l A B : List Char}, findColonSpace l = some (A, B) → l = A ++ ':' :: ' ' :: B := by
  intro l
  induction l with
  | nil => intro A B h; simp [findColonSpace] at h
  | cons c cs ih =>
    intro A B h
    rw [findColonSpace] at h
    split at h
    · rename_i hc
      obtain ⟨rfl, hhead⟩ := hc
      cases cs with
      | nil => simp at hhead
      | cons c2 cs2 =>
        simp only [List.head?_cons, Option.some.injEq] at hhead
        subst hhead
        simp only [List.tail_cons, Option.some.injEq, Prod.mk.injEq] at h
        rw [← h.1, ← h.2]
        rfl
    · simp only [Option.map_eq_some'] at h
      obtain ⟨p, hp, hEq⟩ := h
      cases hEq
      rw [List.cons_append, ← ih hp]

theorem findBracketSpace_decomp :
    ∀ {l A B : List Char}, findBracketSpace l = some (A, B) → l = A ++ ']' :: ' ' :: B := by
  intro l
  induction l with
  | nil => intro A B h; simp [findBracketSpace] at h
  | cons c cs ih =>
    intro A B h
    rw [findBracketSpace] at h
    split at h
    · rename_i hc
      obtain ⟨rfl, hhead, -⟩ := hc
      cases cs with
      | nil => simp at hhead
      | cons c2 cs2 =>
        simp only [List.head?_cons, Option.some.injEq] at hhead
        subst hhead
        simp only [List.tail_cons, Option.some.injEq, Prod.mk.injEq] at h
        rw [← h.1, ← h.2]
        rfl
    · simp only [Option.map_eq_some'] at h
      obtain ⟨p, hp, hEq⟩ := h
      cases hEq
      rw [List.cons_append, ← ih hp]

theorem matchPattern_decomp {l : List Char} {t snd c : List Char}
    (h : matchPattern l = some (t, snd, c)) : l = bform t snd c := by
  rw [matchPattern.eq_def] at h
  split at h
  · rename_i rest heq
    split at h
    · rename_i tb rest2 hfb
      split at h
      · rename_i sd2 c2 hfc
        simp only [Option.some.injEq, Prod.mk.injEq] at h
        obtain ⟨rfl, rfl, rfl⟩ := h
        rw [findBracketSpace_decomp hfb, findColonSpace_decomp hfc]
        rfl
      · cases h
    · cases h
  · cases h

end WhatsappScript

namespace WhatsappScript

/-! ## Lemmas about `parse_message` and the loader -/

theorem parse_message_shape (m : String) :
    (∃ t snd c, parse_message m = (some t, some snd, some c)) ∨
    parse_message m = (none, none, none) := by
  unfold parse_message
  rcases matchPattern (pstrip m.data) with _ | ⟨t, snd, c⟩
  · exact Or.inr rfl
  · exact Or.inl ⟨⟨t⟩, ⟨snd⟩, ⟨c⟩, rfl⟩

theorem build_table_false (lines : List String) :
    build_table lines false =
      .ok ⟨["Timestamp", "Sender", "Content"],
        (lines.filter wellFormed).map (fun l => rowOfTriple (parse_message l))⟩ := by
  rw [build_table]
  simp only [Bool.false_eq_true, if_false, List.filter_map, List.map_map]
  rfl

theorem build_rows_shape (lines : List String) :
    ∀ r ∈ ((lines.map parse_message).filter (fun m => m.1.isSome)).map rowOfTriple,
      ∃ t snd c,
        r = [("Timestamp", some t), ("Sender", some snd), ("Content", some c)] := by
  intro r hr
  rw [List.mem_map] at hr
  obtain ⟨m, hm, rfl⟩ := hr
  rw [List.mem_filter] at hm
  obtain ⟨hmem, hsome⟩ := hm
  rw [List.mem_map] at hmem
  obtain ⟨line, -, rfl⟩ := hmem
  rcases parse_message_shape line with ⟨t, snd, c, hp⟩ | hp
  · exact ⟨t, snd, c, by rw [hp]; rfl⟩
  · rw [hp] at hsome; simp at hsome

theorem split_ok_shape {df df' : DataFrame}
    (h : split_and_reorder_timestamp df = .ok df') :
    df'.cols = ["Date", "Time", "Sender", "Content"] ∧
    df'.rows = df.rows.map (fun r =>
      [("Date", ((partsOfRow r).bind (fun l => l.get? 0)).map (fun cs => (⟨cs⟩ : String))),
       ("Time", ((partsOfRow r).bind (fun l => l.get? 1)).map (fun cs => (⟨cs⟩ : String))),
       ("Sender", (getCell r "Sender").getD none),
       ("Content", (getCell r "Content").getD none)]) := by
  rw [split_and_reorder_timestamp] at h
  split at h
  · cases h
  · split at h
    · cases h
    · split at h
      · cases h
      · cases h
        exact ⟨rfl, rfl⟩

/-! ## Lemmas about `splitAll` -/

theorem splitAll_ne_nil (l : List Char) : splitAll l ≠ [] := by
  cases l with
  | nil => simp [splitAll]
  | cons c cs =>
    rw [splitAll]
    split
    · simp
    · split <;> simp

theorem splitAll_no_comma : ∀ {l : List Char}, ',' ∉ l → splitAll l = [l] := by
  intro l h
  induction l with
  | nil => rfl
  | cons c cs ih =>
    have hc : ¬ c = ',' := by
      intro e; subst e; exact h (List.mem_cons_self _ _)
    have h2 : ',' ∉ cs := fun m => h (List.mem_cons_of_mem _ m)
    rw [splitAll, if_neg hc, ih h2]

theorem splitAll_append {D : List Char} (T : List Char) (hD : ',' ∉ D) :
    splitAll (D ++ ',' :: T) = D :: splitAll T := by
  induction D with
  | nil => rw [List.nil_append, splitAll, if_pos rfl]
  | cons c cs ih =>
    have hc : ¬ c = ',' := by
      intro e; subst e; exact hD (List.mem_cons_self _ _)
    have h2 : ',' ∉ cs := fun m => hD (List.mem_cons_of_mem _ m)
    rw [List.cons_append, splitAll, if_neg hc, ih h2]

/-! ## Lemmas about the search fragment -/

theorem patSearch_nil (s : List Char) : patSearch [] s = true := by
  cases s <;> simp [patSearch, suffixes, patAt]

theorem patAt_eq_prefixCI {w : List Char} (hw : ∀ ch ∈ w, isRegexMeta ch = false) :
    ∀ s, patAt w s = prefixCI w s := by
  induction w with
  | nil => intro s; cases s <;> rfl
  | cons p ps ih =>
    intro s
    have hp : ¬ p = '.' := by
      intro e
      have hmeta := hw p (List.mem_cons_self _ _)
      rw [e] at hmeta
      simp [isRegexMeta] at hmeta
    cases s with
    | nil => rfl
    | cons c cs =>
      rw [patAt, prefixCI, patCharMatch, if_neg hp,
        ih (fun x hx => hw x (List.mem_cons_of_mem _ hx)) cs]

theorem patSearch_eq_substrCI {w : List Char} (hw : ∀ ch ∈ w, isRegexMeta ch = false)
    (s : List Char) : patSearch w s = substrCI w s := by
  rw [patSearch, substrCI,
    show patAt w = prefixCI w from funext (patAt_eq_prefixCI hw)]

/-! ## Counting lemma for the sender aggregation -/

theorem count_filterMap_eq {α : Type} (f : α → Option String) (l : List α) (b : String) :
    (l.filterMap f).count b = l.countP (fun a => f a == some b) := by
  induction l with
  | nil => rfl
  | cons a l ih =>
    rw [List.filterMap_cons, List.countP_cons]
    cases hfa : f a with
    | none => simp [hfa, ih]
    | some x => rw [List.count_cons]; simp [hfa, ih]

/-! ## The lexicographic key order is a decidable linear order -/

theorem lexLt_irrefl : ∀ a : List Char, lexLt a a = false := by
  intro a
  induction a with
  | nil => rfl
  | cons c cs ih => rw [lexLt, if_pos rfl, ih]

theorem lexLt_asymm : ∀ {a b : List Char},
    lexLt a b = true → lexLt b a = true → False := by
  intro a
  induction a with
  | nil =>
    intro b h1 h2
    cases b with
    | nil => simp [lexLt] at h1
    | cons y ys => simp [lexLt] at h2
  | cons x xs ih =>
    intro b h1 h2
    cases b with
    | nil => simp [lexLt] at h1
    | cons y ys =>
      rw [lexLt] at h1 h2
      by_cases hxy : x = y
      · subst hxy
        rw [if_pos rfl] at h1 h2
        exact ih h1 h2
      · rw [if_neg hxy, decide_eq_true_eq] at h1
        rw [if_neg (fun e => hxy e.symm), decide_eq_true_eq] at h2
        exact absurd h2 (lt_asymm h1)

theorem lexLt_trans : ∀ {a b c : List Char},
    lexLt a b = true → lexLt b c = true → lexLt a c = true := by
  intro a
  induction a with
  | nil =>
    intro b c h1 h2
    cases b with
    | nil => simp [lexLt] at h1
    | cons y ys =>
      cases c with
      | nil => simp [lexLt] at h2
      | cons z zs => rfl
  | cons x xs ih =>
    intro b c h1 h2
    cases b with
    | nil => simp [lexLt] at h1
    | cons y ys =>
      cases c with
      | nil => simp [lexLt] at h2
      | cons z zs =>
        rw [lexLt] at h1 h2 ⊢
        by_cases hxy : x = y
        · subst hxy
          rw [if_pos rfl] at h1
          by_cases hyz : x = z
          · subst hyz
            rw [if_pos rfl] at h2 ⊢
            exact ih h1 h2
          · rw [if_neg hyz] at h2 ⊢
            exact h2
        · rw [if_neg hxy, decide_eq_true_eq] at h1
          by_cases hyz : y = z
          · subst hyz
            rw [if_neg hxy, decide_eq_true_eq]
            exact h1
          · rw [if_neg hyz, decide_eq_true_eq] at h2
            have hxz : x < z := lt_trans h1 h2
            have hne : ¬ x = z := by
              intro e
              rw [e] at hxz
              exact lt_irrefl z hxz
            rw [if_neg hne, decide_eq_true_eq]
            exact hxz

theorem lexLt_total : ∀ a b : List Char,
    a = b ∨ lexLt a b = true ∨ lexLt b a = true := by
  intro a
  induction a with
  | nil =>
    intro b
    cases b with
    | nil => exact Or.inl rfl
    | cons y ys => exact Or.inr (Or.inl rfl)
  | cons x xs ih =>
    intro b
    cases b with
    | nil => exact Or.inr (Or.inr rfl)
    | cons y ys =>
      by_cases hxy : x = y
      · subst hxy
        rcases ih ys with rfl | h | h
        · exact Or.inl rfl
        · exact Or.inr (Or.inl (by rw [lexLt, if_pos rfl]; exact h))
        · exact Or.inr (Or.inr (by rw [lexLt, if_pos rfl]; exact h))
      · rcases lt_trichotomy x y with h | h | h
        · refine Or.inr (Or.inl ?_)
          rw [lexLt, if_neg hxy, decide_eq_true_eq]
          exact h
        · exact absurd h hxy
        · refine Or.inr (Or.inr ?_)
          rw [lexLt, if_neg (fun e => hxy e.symm), decide_eq_true_eq]
          exact h

theorem string_eq_of_data_eq {a b : String} (h : a.data = b.data) : a = b := by
  cases a; cases b; cases h; rfl

theorem strLeB_total (a b : String) : strLeB a b = true ∨ strLeB b a = true := by
  rcases lexLt_total a.data b.data with h | h | h
  · exact Or.inl (by rw [strLeB, string_eq_of_data_eq h, beq_self_eq_true, Bool.true_or])
  · exact Or.inl (by rw [strLeB, h, Bool.or_true])
  · exact Or.inr (by rw [strLeB, h, Bool.or_true])

theorem strLeB_trans : ∀ {a b c : String},
    strLeB a b = true → strLeB b c = true → strLeB a c = true := by
  intro a b c h1 h2
  rw [strLeB, Bool.or_eq_true] at h1 h2 ⊢
  rcases h1 with h1 | h1
  · rw [eq_of_beq h1]
    exact h2
  · rcases h2 with h2 | h2
    · rw [← eq_of_beq h2]
      exact Or.inr h1
    · exact Or.inr (lexLt_trans h1 h2)

theorem strLeB_antisymm : ∀ {a b : String},
    strLeB a b = true → strLeB b a = true → a = b := by
  intro a b h1 h2
  rw [strLeB, Bool.or_eq_true] at h1 h2
  rcases h1 with h1 | h1
  · exact eq_of_beq h1
  · rcases h2 with h2 | h2
    · exact (eq_of_beq h2).symm
    · exact absurd h2 (fun h2 => lexLt_asymm h1 h2)

instance : IsTotal String (fun a b => strLeB a b = true) := ⟨strLeB_total⟩

instance : IsTrans String (fun a b => strLeB a b = true) :=
  ⟨fun _ _ _ => strLeB_trans⟩

instance : IsAntisymm String (fun a b => strLeB a b = true) :=
  ⟨fun _ _ => strLeB_antisymm⟩

theorem strLeB_ne_lexLt {a b : String} (hle : strLeB a b = true) (hne : a ≠ b) :
    lexLt a.data b.data = true := by
  rw [strLeB, Bool.or_eq_true] at hle
  rcases hle with h | h
  · exact absurd (eq_of_beq h) hne
  · exact h

end WhatsappScript

namespace WhatsappScript

/-! ## Small evaluation helpers for literal rows -/

theorem getCell_row3_timestamp (a b c : Cell) :
    getCell [("Timestamp", a), ("Sender", b), ("Content", c)] "Timestamp" = some a := rfl

theorem getCell_row3_sender (a b c : Cell) :
    getCell [("Timestamp", a), ("Sender", b), ("Content", c)] "Sender" = some b := rfl

theorem getCell_row3_content (a b c : Cell) :
    getCell [("Timestamp", a), ("Sender", b), ("Content", c)] "Content" = some c := rfl

theorem getCell_row4_date (a b c d : Cell) :
    getCell [("Date", a), ("Time", b), ("Sender", c), ("Content", d)] "Date" = some a := rfl

/-! ## Concrete filesystems for exercising the loader -/

/-- One well-formed chat line. -/
def chatLine : String := "[2023-01-01, 12:00 PM] Alice: hi"

/-- A filesystem holding only `_chat.txt`. -/
def fsWithChat : FileSystem := fun p =>
  if p = "_chat.txt" then some [chatLine] else none

/-- A filesystem holding only `other.txt` (no `_chat.txt`). -/
def fsOther : FileSystem := fun p =>
  if p = "other.txt" then some [chatLine] else none

/-- C1: the claim says `load(file_path, ...)` reads the file at the
supplied `file_path` and raises exactly when that path cannot be opened.
The source instead executes `open('_chat.txt', ...)`, ignoring the
parameter (contradicting its own docstring, which promises to read the
given path and raise `FileNotFoundError` when it is missing): loading a
nonexistent path succeeds as long as `_chat.txt` exists, and loading an
existing path fails when `_chat.txt` is absent. -/
theorem C1_load_reads_fixed_path :
    fsWithChat "missing.txt" = none ∧
    load_chat_data fsWithChat "missing.txt" =
      .ok ⟨["Date", "Time", "Sender", "Content"],
        [[("Date", some "2023-01-01"), ("Time", some " 12:00 PM"),
          ("Sender", some "Alice"), ("Content", some "hi")]]⟩ ∧
    fsOther "other.txt" = some [chatLine] ∧
    load_chat_data fsOther "other.txt" = .error (.fileNotFound "_chat.txt") := by
  decide

/-- C7: the claim says an empty input file yields a zero-row table with
the correct columns even with `split_timestamp=true`.  With the default
`split_timestamp=True` the split of an empty column produces a zero-column
frame and the `df[["Date", "Time"]]` assignment raises a pandas
`ValueError`, so the empty-file load crashes instead of returning an empty
table; the rest of the claim (the `split_timestamp=false` column set, and
that the sender aggregation and the search accept an empty, correctly
columned table) does hold. -/
theorem C7_empty_load_crashes :
    build_table [] true = .error (.valueError "Columns must be same length as key") ∧
    build_table [] false = .ok ⟨["Timestamp", "Sender", "Content"], []⟩ ∧
    sender_message_count ⟨["Date", "Time", "Sender", "Content"], []⟩ = .ok [] ∧
    count_word_usage "hello" ⟨["Date", "Time", "Sender", "Content"], []⟩ =
      .ok ⟨["Date", "Sender", "Content"], []⟩ := by
  decide

/-- C2 counterexample: on the line `"[a]b] S: C"` the first `"]"` is
followed by `'b'`, not a space, so under the claim the line is not of the
form `"[T] S: C"` (with T ending at the first `"]"`) and should give the
sentinel; the lazy regex instead backtracks past that bracket and matches
with timestamp `"a]b"`. -/
theorem C2_backtracking_counterexample :
    parse_message "[a]b] S: C" = (some "a]b", some "S", some "C") ∧
    parse_message "[a]b] S: C" ≠ (none, none, none) := by
  decide

/-- C2 amended: a stripped line of the form `"[T] S: C"` parses to exactly
`(T, S, C)` provided T ends at the first `"] "` (bracket followed by
space; equivalently, `"] "` does not occur inside T) and S ends at the
first `": "` after that; and any line on which the parser does not return
the sentinel does decompose as `"[T] S: C"`, so lines with no bracket or
no `": "` separator always give the sentinel. -/
theorem C2_parse_line_amended (line : String) :
    (∀ T S C : List Char, pstrip line.data = bform T S C →
      containsSeq [']', ' '] T = false → containsSeq [':', ' '] S = false →
      parse_message line = (some ⟨T⟩, some ⟨S⟩, some ⟨C⟩)) ∧
    (parse_message line ≠ (none, none, none) →
      ∃ T S C : List Char, pstrip line.data = bform T S C) := by
  constructor
  · intro T S C hform hT hS
    unfold parse_message
    rw [hform, matchPattern_bform T S C hT hS]
  · intro hne
    rcases h : matchPattern (pstrip line.data) with _ | ⟨t, snd, c⟩
    · exfalso
      apply hne
      unfold parse_message
      rw [h]
    · exact ⟨t, snd, c, matchPattern_decomp h⟩

/-- C2 witness: the amended statement applied to one well-formed line
(both directions). -/
theorem C2_parse_line_amended_witness :
    parse_message "[2023-01-01, 12:00 PM] Alice: Hello, how are you?" =
      (some "2023-01-01, 12:00 PM", some "Alice", some "Hello, how are you?") ∧
    ∃ T S C : List Char,
      pstrip "[2023-01-01, 12:00 PM] Alice: Hello, how are you?".data = bform T S C := by
  constructor
  · exact (C2_parse_line_amended _).1 "2023-01-01, 12:00 PM".data "Alice".data
      "Hello, how are you?".data (by decide) (by decide) (by decide)
  · exact (C2_parse_line_amended _).2 (by decide)

end WhatsappScript

namespace WhatsappScript

/-- C3 counterexample: pandas `str.split(",")` keeps everything after the
comma — including the leading space — in the Time part, so recombining
Date and Time with the separator `", "` inserts a second space and does
not reproduce the original timestamp. -/
theorem C3_roundtrip_counterexample :
    split_and_reorder_timestamp ⟨["Timestamp", "Sender", "Content"],
      [[("Timestamp", some "2023-01-01, 12:00 PM"), ("Sender", some "Alice"),
        ("Content", some "hi")]]⟩ =
      .ok ⟨["Date", "Time", "Sender", "Content"],
        [[("Date", some "2023-01-01"), ("Time", some " 12:00 PM"),
          ("Sender", some "Alice"), ("Content", some "hi")]]⟩ ∧
    "2023-01-01" ++ ", " ++ " 12:00 PM" ≠ "2023-01-01, 12:00 PM" := by
  decide

/-- C3 amended: for a timestamp `D ++ "," ++ T` with exactly one comma,
the split produces Date `D` and Time `T` (`T` keeps whatever followed the
comma, leading space included), and recombining with the bare comma `","`
— not `", "` — reproduces the original timestamp exactly. -/
theorem C3_split_roundtrip_amended (D T : List Char) (S C : String)
    (hD : ',' ∉ D) (hT : ',' ∉ T) :
    split_and_reorder_timestamp ⟨["Timestamp", "Sender", "Content"],
      [[("Timestamp", some ⟨D ++ ',' :: T⟩), ("Sender", some S), ("Content", some C)]]⟩ =
      .ok ⟨["Date", "Time", "Sender", "Content"],
        [[("Date", some ⟨D⟩), ("Time", some ⟨T⟩),
          ("Sender", some S), ("Content", some C)]]⟩ ∧
    (⟨D⟩ : String) ++ "," ++ (⟨T⟩ : String) = (⟨D ++ ',' :: T⟩ : String) := by
  have hsplit : splitAll (D ++ ',' :: T) = [D, T] := by
    rw [splitAll_append T hD, splitAll_no_comma hT]
  have hparts : partsOfRow
      [("Timestamp", some (⟨D ++ ',' :: T⟩ : String)), ("Sender", some S), ("Content", some C)] =
      some [D, T] := by
    rw [partsOfRow, getCell_row3_timestamp]
    show some (splitAll (D ++ ',' :: T)) = some [D, T]
    rw [hsplit]
  constructor
  · rw [split_and_reorder_timestamp]
    simp only [List.foldl_cons, List.foldl_nil, hparts, getCell_row3_sender,
      getCell_row3_content, List.map_cons, List.map_nil]
    rfl
  · show String.mk ((D ++ [',']) ++ T) = String.mk (D ++ ',' :: T)
    rw [List.append_assoc]
    rfl

/-- C5: the loader keeps exactly the well-formed lines (those the line
parser accepts), one row per such line, in their original relative order;
malformed lines are dropped without a trace, so the row count is the
number of well-formed lines. -/
theorem C5_load_keeps_wellformed_rows (lines : List String) :
    build_table lines false =
      .ok ⟨["Timestamp", "Sender", "Content"],
        (lines.filter wellFormed).map (fun l => rowOfTriple (parse_message l))⟩ ∧
    (lines.filter wellFormed).length = lines.countP wellFormed := by
  exact ⟨build_table_false lines, (List.countP_eq_length_filter _ _).symm⟩

end WhatsappScript

namespace WhatsappScript

/-- C3 witness: the amended round trip evaluated on a concrete
timestamp. -/
theorem C3_split_roundtrip_amended_witness :
    split_and_reorder_timestamp ⟨["Timestamp", "Sender", "Content"],
      [[("Timestamp", some "2024-06-30, 9:05 AM"), ("Sender", some "Bob"),
        ("Content", some "see you")]]⟩ =
      .ok ⟨["Date", "Time", "Sender", "Content"],
        [[("Date", some "2024-06-30"), ("Time", some " 9:05 AM"),
          ("Sender", some "Bob"), ("Content", some "see you")]]⟩ ∧
    ("2024-06-30" : String) ++ "," ++ (" 9:05 AM" : String) = "2024-06-30, 9:05 AM" := by
  exact C3_split_roundtrip_amended "2024-06-30".data " 9:05 AM".data "Bob" "see you"
    (by decide) (by decide)

/-- C6 counterexample: with one comma-free timestamp alongside a one-comma
timestamp, the split succeeds (the expansion is two columns wide) and pads
the comma-free row's Time with a null, so the loaded table does contain a
partial row with a null field, contrary to the claim that no partial row
ever appears. -/
theorem C6_null_time_counterexample :
    build_table ["[a] s: c", "[x, y] u: v"] true =
      .ok ⟨["Date", "Time", "Sender", "Content"],
        [[("Date", some "a"), ("Time", none), ("Sender", some "s"), ("Content", some "c")],
         [("Date", some "x"), ("Time", some " y"), ("Sender", some "u"),
          ("Content", some "v")]]⟩ := by
  decide

/-- C6 amended: although the loader's filter inspects only the timestamp
component, the parser returns all-or-nothing, so in the unsplit table
every cell of every row is non-null; in the split table the Date, Sender
and Content cells are always non-null as well — only the Time cell can be
null (exactly when that row's timestamp contains no comma, as in the
counterexample). -/
theorem C6_nonnull_amended (lines : List String) :
    (∀ df, build_table lines false = .ok df → ∀ r ∈ df.rows, ∀ col ∈ df.cols,
      ∃ v, getCell r col = some (some v)) ∧
    (∀ df, build_table lines true = .ok df → ∀ r ∈ df.rows,
      (∃ v, getCell r "Date" = some (some v)) ∧
      (∃ v, getCell r "Sender" = some (some v)) ∧
      (∃ v, getCell r "Content" = some (some v))) := by
  constructor
  · intro df h r hr col hcol
    rw [build_table] at h
    simp only [Bool.false_eq_true, if_false] at h
    cases h
    obtain ⟨t, snd, c, rfl⟩ := build_rows_shape lines r hr
    simp only [List.mem_cons, List.not_mem_nil, or_false] at hcol
    rcases hcol with rfl | rfl | rfl
    · exact ⟨t, rfl⟩
    · exact ⟨snd, rfl⟩
    · exact ⟨c, rfl⟩
  · intro df h r hr
    rw [build_table] at h
    simp only [if_true] at h
    obtain ⟨-, hrows⟩ := split_ok_shape h
    rw [hrows] at hr
    rw [List.mem_map] at hr
    obtain ⟨r0, hr0, rfl⟩ := hr
    obtain ⟨t, snd, c, rfl⟩ := build_rows_shape lines r0 hr0
    refine ⟨?_, ⟨snd, rfl⟩, ⟨c, rfl⟩⟩
    cases e : splitAll t.data with
    | nil => exact absurd e (splitAll_ne_nil _)
    | cons x xs =>
      have hparts : partsOfRow
          [("Timestamp", some t), ("Sender", some snd), ("Content", some c)] =
          some (x :: xs) := by
        rw [partsOfRow, getCell_row3_timestamp]
        show some (splitAll t.data) = some (x :: xs)
        rw [e]
      refine ⟨⟨x⟩, ?_⟩
      rw [getCell_row4_date, hparts]
      rfl

/-- C6 witness: the amended statement applied to a two-line file. -/
theorem C6_nonnull_amended_witness :
    (∀ df, build_table ["[d, t] A: hi", "junk"] false = .ok df →
      ∀ r ∈ df.rows, ∀ col ∈ df.cols, ∃ v, getCell r col = some (some v)) ∧
    (∀ df, build_table ["[d, t] A: hi", "junk"] true = .ok df → ∀ r ∈ df.rows,
      (∃ v, getCell r "Date" = some (some v)) ∧
      (∃ v, getCell r "Sender" = some (some v)) ∧
      (∃ v, getCell r "Content" = some (some v))) :=
  C6_nonnull_amended ["[d, t] A: hi", "junk"]

end WhatsappScript

namespace WhatsappScript

/-- C4 counterexample: `str.contains` defaults to `regex=True`, so the
word is a regular-expression pattern.  Searching for `"h.llo"` returns the
row whose content is `"hallo"` even though `"h.llo"` is not a
case-insensitive literal substring of it — the word is interpreted as a
structured pattern, contrary to the claim. -/
theorem C4_regex_counterexample :
    count_word_usage "h.llo" ⟨["Date", "Sender", "Content"],
      [[("Date", some "d"), ("Sender", some "A"), ("Content", some "hallo")]]⟩ =
      .ok ⟨["Date", "Sender", "Content"],
        [[("Date", some "d"), ("Sender", some "A"), ("Content", some "hallo")]]⟩ ∧
    substrCI "h.llo".data "hallo".data = false := by
  decide

/-- C4 amended: the word is matched as a case-insensitive regular
expression; for every word free of regex metacharacters this coincides
with case-insensitive literal substring filtering, which keeps exactly the
matching rows, in original order, restricted to Date, Sender, Content. -/
theorem C4_search_amended (word : String) (df : DataFrame)
    (hw : ∀ ch ∈ word.data, isRegexMeta ch = false)
    (hD : df.cols.contains "Date" = true) (hS : df.cols.contains "Sender" = true)
    (hC : df.cols.contains "Content" = true) :
    count_word_usage word df = .ok ⟨["Date", "Sender", "Content"],
      (df.rows.filter (fun r => match (getCell r "Content").getD none with
        | some s => substrCI word.data s.data
        | none => false)).map (projRow ["Date", "Sender", "Content"])⟩ := by
  have hcond : ¬((!(df.cols.contains "Content")) = true) := by rw [hC]; decide
  have hfind : (["Date", "Sender", "Content"].find?
      (fun c => !(df.cols.contains c))) = none := by
    rw [List.find?_eq_none]
    intro x hx
    simp only [List.mem_cons, List.not_mem_nil, or_false] at hx
    rcases hx with rfl | rfl | rfl <;> simp only [hD, hS, hC] <;> decide
  simp only [count_word_usage, hcond, if_false, Bool.false_eq_true, selectCols, hfind,
    show patSearch word.data = substrCI word.data from funext (patSearch_eq_substrCI hw)]

/-- C4 witness: the claim's own example, searching `"hello"` over contents
`["Hello there", "bye", "say hello!"]` keeps rows 0 and 2 in order. -/
theorem C4_search_amended_witness :
    count_word_usage "hello" ⟨["Date", "Sender", "Content"],
      [[("Date", some "d1"), ("Sender", some "A"), ("Content", some "Hello there")],
       [("Date", some "d2"), ("Sender", some "B"), ("Content", some "bye")],
       [("Date", some "d3"), ("Sender", some "Cee"), ("Content", some "say hello!")]]⟩ =
      .ok ⟨["Date", "Sender", "Content"],
        [[("Date", some "d1"), ("Sender", some "A"), ("Content", some "Hello there")],
         [("Date", some "d3"), ("Sender", some "Cee"), ("Content", some "say hello!")]]⟩ := by
  exact (C4_search_amended "hello" _ (by decide) (by decide) (by decide) (by decide)).trans
    (by decide)

/-- C8: the search filters on Content first, then selects
`[["Date", "Sender", "Content"]]`; when the Date column is absent that
selection fails with the missing-column error, and when Date (and Sender)
are present it returns a table with exactly those three columns. -/
theorem C8_search_requires_date (word : String) (df : DataFrame)
    (hC : df.cols.contains "Content" = true) :
    (df.cols.contains "Date" = false →
      count_word_usage word df = .error (.missingColumn "Date")) ∧
    (df.cols.contains "Date" = true → df.cols.contains "Sender" = true →
      ∃ rws, count_word_usage word df = .ok ⟨["Date", "Sender", "Content"], rws⟩) := by
  have hcond : ¬((!(df.cols.contains "Content")) = true) := by rw [hC]; decide
  constructor
  · intro hD
    have hfind : (["Date", "Sender", "Content"].find?
        (fun c => !(df.cols.contains c))) = some "Date" := by
      have hpred : (!(df.cols.contains "Date")) = true := by rw [hD]; rfl
      exact List.find?_cons_of_pos _ hpred
    simp only [count_word_usage, hcond, if_false, Bool.false_eq_true, selectCols, hfind]
  · intro hD hS
    have hfind : (["Date", "Sender", "Content"].find?
        (fun c => !(df.cols.contains c))) = none := by
      rw [List.find?_eq_none]
      intro x hx
      simp only [List.mem_cons, List.not_mem_nil, or_false] at hx
      rcases hx with rfl | rfl | rfl <;> simp only [hD, hS, hC] <;> decide
    exact ⟨(df.rows.filter (fun r =>
        match (getCell r "Content").getD none with
        | some s => patSearch word.data s.data
        | none => false)).map (projRow ["Date", "Sender", "Content"]),
      by simp only [count_word_usage, hcond, if_false, Bool.false_eq_true, selectCols, hfind]⟩

/-- C8 witness: both directions at concrete tables (the first lacking a
Date column, as `load` with `split_timestamp=false` produces). -/
theorem C8_search_requires_date_witness :
    count_word_usage "hi" ⟨["Timestamp", "Sender", "Content"],
      [[("Timestamp", some "t"), ("Sender", some "A"), ("Content", some "hi")]]⟩ =
      .error (.missingColumn "Date") ∧
    ∃ rws, count_word_usage "hi" ⟨["Date", "Sender", "Content"],
      [[("Date", some "d"), ("Sender", some "A"), ("Content", some "hi")]]⟩ =
      .ok ⟨["Date", "Sender", "Content"], rws⟩ := by
  constructor
  · exact (C8_search_requires_date "hi" _ (by decide)).1 (by decide)
  · exact (C8_search_requires_date "hi" _ (by decide)).2 (by decide) (by decide)

end WhatsappScript

namespace WhatsappScript

/-- Evaluation helper: on a table with a Sender column the aggregation
returns the sorted distinct senders paired with their counts. -/
theorem sender_message_count_ok {df : DataFrame}
    (h : df.cols.contains "Sender" = true) :
    sender_message_count df =
      .ok ((List.insertionSort (fun a b => strLeB a b = true) (senderVals df).dedup).map
        (fun k => (k, (senderVals df).count k))) := by
  rw [sender_message_count, if_neg (by rw [h]; decide)]

/-- C9: the sender distribution counts, for each distinct sender, the
rows with that sender; the result is invariant under any permutation of
the rows, and its keys are in strictly increasing (alphabetical) order
rather than insertion order. -/
theorem C9_sender_distribution (df df' : DataFrame)
    (h : df.cols.contains "Sender" = true) (h' : df'.cols.contains "Sender" = true)
    (hperm : df.rows.Perm df'.rows) :
    sender_message_count df = sender_message_count df' ∧
    ∀ l, sender_message_count df = .ok l →
      (∀ p ∈ l, p.2 = df.rows.countP
        (fun r => (getCell r "Sender").getD none == some p.1)) ∧
      l.Pairwise (fun p q => lexLt p.1.data q.1.data = true) ∧
      (∀ s : String, (∃ r ∈ df.rows, (getCell r "Sender").getD none = some s) ↔
        ∃ n, (s, n) ∈ l) := by
  have hvals : (senderVals df).Perm (senderVals df') := hperm.filterMap _
  have hkeys : List.insertionSort (fun a b => strLeB a b = true) (senderVals df).dedup =
      List.insertionSort (fun a b => strLeB a b = true) (senderVals df').dedup := by
    refine List.eq_of_perm_of_sorted ?_ (List.sorted_insertionSort _ _)
      (List.sorted_insertionSort _ _)
    exact (List.perm_insertionSort _ _).trans
      (hvals.dedup.trans (List.perm_insertionSort _ _).symm)
  constructor
  · rw [sender_message_count_ok h, sender_message_count_ok h', hkeys]
    exact congrArg _ (List.map_congr_left (fun k _ => by rw [hvals.count_eq k]))
  · intro l hl
    rw [sender_message_count_ok h] at hl
    cases hl
    refine ⟨?_, ?_, ?_⟩
    · intro p hp
      rw [List.mem_map] at hp
      obtain ⟨k, -, rfl⟩ := hp
      exact count_filterMap_eq _ df.rows k
    · rw [List.pairwise_map]
      have hsorted : List.Pairwise (fun a b => strLeB a b = true)
          (List.insertionSort (fun a b => strLeB a b = true) (senderVals df).dedup) :=
        List.sorted_insertionSort _ _
      have hnodup : (List.insertionSort (fun a b => strLeB a b = true)
          (senderVals df).dedup).Nodup :=
        (List.perm_insertionSort _ _).nodup_iff.mpr (List.nodup_dedup _)
      exact (hsorted.and hnodup).imp (fun hpair => strLeB_ne_lexLt hpair.1 hpair.2)
    · intro s
      constructor
      · intro ⟨r, hr, hcell⟩
        have hmem : s ∈ senderVals df := List.mem_filterMap.mpr ⟨r, hr, hcell⟩
        have hkey : s ∈ List.insertionSort (fun a b => strLeB a b = true)
            (senderVals df).dedup := by
          rw [List.mem_insertionSort, List.mem_dedup]
          exact hmem
        exact ⟨(senderVals df).count s,
          List.mem_map_of_mem (fun k => (k, (senderVals df).count k)) hkey⟩
      · intro ⟨n, hn⟩
        rw [List.mem_map] at hn
        obtain ⟨k, hk, hEq⟩ := hn
        obtain ⟨rfl, -⟩ : k = s ∧ (senderVals df).count k = n := by
          constructor
          · exact congrArg Prod.fst hEq
          · exact congrArg Prod.snd hEq
        rw [List.mem_insertionSort, List.mem_dedup] at hk
        obtain ⟨r, hr, hcell⟩ := List.mem_filterMap.mp hk
        exact ⟨r, hr, hcell⟩

/-- C9 witness: the claim's Alice/Bob example in two different row
orders, each aggregating to Alice=2, Bob=1 in alphabetical key order. -/
theorem C9_sender_distribution_witness :
    sender_message_count ⟨["Timestamp", "Sender", "Content"],
      [[("Timestamp", some "t1"), ("Sender", some "Bob"), ("Content", some "x")],
       [("Timestamp", some "t2"), ("Sender", some "Alice"), ("Content", some "y")],
       [("Timestamp", some "t3"), ("Sender", some "Alice"), ("Content", some "z")]]⟩ =
      .ok [("Alice", 2), ("Bob", 1)] ∧
    sender_message_count ⟨["Timestamp", "Sender", "Content"],
      [[("Timestamp", some "t2"), ("Sender", some "Alice"), ("Content", some "y")],
       [("Timestamp", some "t3"), ("Sender", some "Alice"), ("Content", some "z")],
       [("Timestamp", some "t1"), ("Sender", some "Bob"), ("Content", some "x")]]⟩ =
      .ok [("Alice", 2), ("Bob", 1)] := by
  have hconst := (C9_sender_distribution
    ⟨["Timestamp", "Sender", "Content"],
      [[("Timestamp", some "t1"), ("Sender", some "Bob"), ("Content", some "x")],
       [("Timestamp", some "t2"), ("Sender", some "Alice"), ("Content", some "y")],
       [("Timestamp", some "t3"), ("Sender", some "Alice"), ("Content", some "z")]]⟩
    ⟨["Timestamp", "Sender", "Content"],
      [[("Timestamp", some "t2"), ("Sender", some "Alice"), ("Content", some "y")],
       [("Timestamp", some "t3"), ("Sender", some "Alice"), ("Content", some "z")],
       [("Timestamp", some "t1"), ("Sender", some "Bob"), ("Content", some "x")]]⟩
    (by decide) (by decide) (by decide)).1
  have e : sender_message_count ⟨["Timestamp", "Sender", "Content"],
      [[("Timestamp", some "t1"), ("Sender", some "Bob"), ("Content", some "x")],
       [("Timestamp", some "t2"), ("Sender", some "Alice"), ("Content", some "y")],
       [("Timestamp", some "t3"), ("Sender", some "Alice"), ("Content", some "z")]]⟩ =
      .ok [("Alice", 2), ("Bob", 1)] := by decide
  exact ⟨e, hconst.symm.trans e⟩

/-- C10: with the empty string as word, the regex matches every non-null
content (the empty pattern matches at position 0), so the search is an
identity filter: it returns every row, in order, restricted to the Date,
Sender and Content columns. -/
theorem C10_empty_word_identity (df : DataFrame)
    (hD : df.cols.contains "Date" = true) (hS : df.cols.contains "Sender" = true)
    (hC : df.cols.contains "Content" = true)
    (hnn : ∀ r ∈ df.rows, ((getCell r "Content").getD none).isSome = true) :
    count_word_usage "" df =
      .ok ⟨["Date", "Sender", "Content"],
        df.rows.map (projRow ["Date", "Sender", "Content"])⟩ := by
  have hcond : ¬((!(df.cols.contains "Content")) = true) := by rw [hC]; decide
  have hfind : (["Date", "Sender", "Content"].find?
      (fun c => !(df.cols.contains c))) = none := by
    rw [List.find?_eq_none]
    intro x hx
    simp only [List.mem_cons, List.not_mem_nil, or_false] at hx
    rcases hx with rfl | rfl | rfl <;> simp only [hD, hS, hC] <;> decide
  have hfilter : df.rows.filter (fun r =>
      match (getCell r "Content").getD none with
      | some s => patSearch "".data s.data
      | none => false) = df.rows := by
    rw [List.filter_eq_self]
    intro r hr
    obtain ⟨s, hs⟩ := Option.isSome_iff_exists.mp (hnn r hr)
    rw [hs]
    exact patSearch_nil s.data
  simp only [count_word_usage, hcond, if_false, Bool.false_eq_true, selectCols, hfind,
    hfilter]

/-- C10 witness: the empty-word search on a concrete three-row table
returns all rows. -/
theorem C10_empty_word_identity_witness :
    count_word_usage "" ⟨["Date", "Sender", "Content"],
      [[("Date", some "d1"), ("Sender", some "A"), ("Content", some "x")],
       [("Date", some "d2"), ("Sender", some "B"), ("Content", some "")],
       [("Date", some "d3"), ("Sender", some "A"), ("Content", some "yz")]]⟩ =
      .ok ⟨["Date", "Sender", "Content"],
        [[("Date", some "d1"), ("Sender", some "A"), ("Content", some "x")],
         [("Date", some "d2"), ("Sender", some "B"), ("Content", some "")],
         [("Date", some "d3"), ("Sender", some "A"), ("Content", some "yz")]]⟩ := by
  exact (C10_empty_word_identity _ (by decide) (by decide) (by decide)
    (by decide)).trans (by decide)

end WhatsappScript
